import Mathlib

/-!
Verification of the Aqara MCP server's API-client subsystem
(`src/aqara-client.ts`, `src/utils.ts`, `src/types.ts`, `src/index.ts`)
against its natural-language specification.

The TypeScript source is shallowly embedded: pure functions become Lean
functions, the response cache becomes explicit state passing over an
association list, the network becomes an oracle parameter
`net : Request → Except UnwrapError α`, and JavaScript truthiness on
optional strings is made explicit (absent or empty string = falsy).
-/

namespace Aqara

/-! ## Region table (`getBaseURL`, aqara-client.ts lines 55-66)

`domains` is the static region→URL object literal; `getBaseURL` embeds
`domains[region] || domains.usa`. JavaScript property access on a plain
object literal consults the prototype chain after the own keys, so for the
`Object.prototype` property names (`"constructor"`, `"toString"`,
`"__proto__"`, …) the expression `domains[region]` yields the inherited
value — a function or object, hence truthy — and `||` returns it instead of
the `usa` URL. The model keeps that case as a separate constructor, since
the inherited values are not strings. -/

def domains : List (String × String) :=
  [("cn", "https://open-cn.aqara.com"),
   ("usa", "https://open-usa.aqara.com"),
   ("eu", "https://open-ger.aqara.com"),
   ("kr", "https://open-kr.aqara.com"),
   ("ru", "https://open-ru.aqara.com"),
   ("sg", "https://open-sg.aqara.com")]

/-- The property names a plain object literal inherits from
`Object.prototype` in a standard ECMAScript environment; accessing any of
them on `domains` yields a truthy non-string value (a function, or for
`__proto__` the `Object.prototype` object itself). -/
def objectProtoProps : List String :=
  ["constructor", "hasOwnProperty", "isPrototypeOf", "propertyIsEnumerable",
   "toLocaleString", "toString", "valueOf", "__proto__", "__defineGetter__",
   "__defineSetter__", "__lookupGetter__", "__lookupSetter__"]

/-- What `domains[region] || domains.usa` evaluates to: a base-URL string,
or (for an `Object.prototype` name missed by the own keys) the truthy
inherited value, tagged by the property name. -/
inductive BaseURLResult where
  | url (u : String)
  | inherited (name : String)
  deriving Repr, DecidableEq

def getBaseURL (region : String) : BaseURLResult :=
  match domains.lookup region with
  | some url => .url url
  | none =>
    if region ∈ objectProtoProps then .inherited region
    else .url "https://open-usa.aqara.com"

/-- `src/index.ts` line 280: `(process.env.AQARA_REGION as any) || 'usa'` —
an unset (or empty, hence JS-falsy) environment region defaults to `"usa"`
before it ever reaches `getBaseURL`. -/
def configuredRegion (envRegion : Option String) : String :=
  match envRegion with
  | some r => if r = "" then "usa" else r
  | none => "usa"

def regionKeys : List String := ["cn", "usa", "eu", "kr", "ru", "sg"]

/-! ## Envelope unwrapping (`handleAqaraResponse`, utils.ts lines 262-275) -/

/-- The vendor response envelope (types.ts `AqaraResponse<T>`). -/
structure Envelope (T : Type) where
  code : Int
  requestId : String
  message : String
  msgDetails : Option String
  result : Option T
  data : Option T
  deriving Repr, DecidableEq

/-- The two kinds of error `handleAqaraResponse` can throw: the `AqaraError`
class (utils.ts lines 249-259) for a nonzero vendor code, and the plain
`Error('Invalid response format from Aqara API')` for a missing body. -/
inductive UnwrapError where
  | aqara (code : Int) (message : String) (details : Option String) (requestId : String)
  | invalidFormat (message : String)
  deriving Repr, DecidableEq

/-- `handleAqaraResponse` (utils.ts lines 262-275). The axios `response.data`
body is modelled as `Option (Envelope T)`: `none` is a transport response
with no (truthy) body. -/
def handleAqaraResponse (response : Option (Envelope T)) : Except UnwrapError (Envelope T) :=
  match response with
  | some env =>
    if env.code ≠ 0 then
      .error (.aqara env.code env.message env.msgDetails env.requestId)
    else
      .ok env
  | none => .error (.invalidFormat "Invalid response format from Aqara API")

/-! ## Startup validation (`validateEnvironment`, utils.ts lines 305-321) -/

def requiredEnvVars : List String :=
  ["AQARA_APP_ID", "AQARA_APP_KEY", "AQARA_KEY_ID", "AQARA_APP_SECRET"]

/-- JS falsiness of `process.env[v]` (a `string | undefined`): missing, or
present but the empty string. -/
def envMissing (env : String → Option String) (v : String) : Bool :=
  match env v with
  | none => true
  | some s => s = ""

def missingVars (env : String → Option String) : List String :=
  requiredEnvVars.filter (envMissing env)

/-- The exact message `validateEnvironment` throws, as built in
utils.ts lines 316-319 (the model of `missing.join(', ')`). -/
def joinComma : List String → String
  | [] => ""
  | [x] => x
  | x :: xs => x ++ ", " ++ joinComma xs

def missingMessage (missing : List String) : String :=
  "Missing required environment variables: " ++ joinComma missing ++
    ". Please check your .env file and ensure all Aqara API credentials are provided."

def validateEnvironment (env : String → Option String) : Except String Unit :=
  if (missingVars env).length > 0 then
    .error (missingMessage (missingVars env))
  else
    .ok ()

/-- `src/index.ts` lines 266-272: validation runs before the server is
built; a thrown configuration error means `process.exit(1)`. -/
def serverStarts (env : String → Option String) : Bool :=
  match validateEnvironment env with
  | .ok _ => true
  | .error _ => false

/-! ## Decimal rendering of JS numbers

The cache keys interpolate page numbers with template literals
(`` `devices_${pageNum}_${pageSize}` ``). Pagination values are modelled as
naturals; `natStr` is the standard decimal rendering of a nonnegative JS
number (fuel-based so it reduces by `rfl`/`decide`). -/

def natDigitsAux : Nat → Nat → List Nat
  | 0, _ => []
  | fuel + 1, n => if n < 10 then [n] else natDigitsAux fuel (n / 10) ++ [n % 10]

/-- Most-significant-first decimal digits of `n`. -/
def natDigits (n : Nat) : List Nat := natDigitsAux (n + 1) n

def digitChar (d : Nat) : Char := Char.ofNat (48 + d)

def natStr (n : Nat) : String := String.mk ((natDigits n).map digitChar)

/-! ## The response cache (NodeCache instance, aqara-client.ts lines 24-28)

Modelled as an association list `key ↦ (value, ttlSeconds)`; `set`
overwrites, `del` removes, `get` returns the stored value. Expiry is not
modelled (no claim about this subsystem depends on the passage of time). -/

def Cache (α : Type) : Type := List (String × α × Nat)

def cacheGet (c : Cache α) (k : String) : Option α :=
  ((List.find? (fun e => e.1 == k) c).map (fun e => e.2.1))

def cacheDel (c : Cache α) (k : String) : Cache α :=
  List.filter (fun e => !(e.1 == k)) c

def cacheSet (c : Cache α) (k : String) (v : α) (ttl : Nat) : Cache α :=
  (k, v, ttl) :: cacheDel c k

/-! ## Requests and client operations (aqara-client.ts lines 111-235)

`makeRequest` posts `{intent, data}`; the network (the rate-limited,
signed HTTP POST plus `handleAqaraResponse` unwrapping) is an oracle
`net : Request → Except UnwrapError α`. Each operation returns its result,
the updated cache, and the list of network requests it issued. -/

/-- A JS value of type `string | number | boolean` (the `value` accepted by
`control_device`). -/
inductive JsValue where
  | s (v : String)
  | n (v : Int)
  | b (v : Bool)
  deriving Repr, DecidableEq

/-- The body `data` of the single vendor endpoint, per intent. -/
inductive ReqData where
  | deviceList (pageNum pageSize : Nat)
  | deviceInfo (dids : List String)
  | writeResource (did : String) (resources : List (String × String × JsValue))
  | sceneList (pageNum pageSize : Nat)
  | sceneRun (sceneId : String)
  | history (subjectId : String) (resourceIds : List String)
      (startTime endTime : String) (pageNum pageSize : Nat)
  deriving Repr, DecidableEq

structure Request where
  intent : String
  data : ReqData
  deriving Repr, DecidableEq

structure OpResult (α : Type) where
  res : Except UnwrapError α
  cache : Cache α
  requests : List Request

def deviceListKey (pageNum pageSize : Nat) : String :=
  "devices_" ++ natStr pageNum ++ "_" ++ natStr pageSize

def deviceStatusKey (deviceId : String) : String :=
  "device_status_" ++ deviceId

def sceneListKey (pageNum pageSize : Nat) : String :=
  "scenes_" ++ natStr pageNum ++ "_" ++ natStr pageSize

def deviceListReq (pageNum pageSize : Nat) : Request :=
  ⟨"query.device.list", .deviceList pageNum pageSize⟩

def deviceStatusReq (deviceId : String) : Request :=
  ⟨"query.device.info", .deviceInfo [deviceId]⟩

def controlReq (deviceId resourceId : String) (value : JsValue) : Request :=
  ⟨"write.device.resource", .writeResource deviceId [(deviceId, resourceId, value)]⟩

def sceneListReq (pageNum pageSize : Nat) : Request :=
  ⟨"query.scene.list", .sceneList pageNum pageSize⟩

def sceneRunReq (sceneId : String) : Request :=
  ⟨"config.scene.run", .sceneRun sceneId⟩

def historyReq (deviceId resourceId startTime endTime : String)
    (pageNum pageSize : Nat) : Request :=
  ⟨"fetch.device.history", .history deviceId [resourceId] startTime endTime pageNum pageSize⟩

/-- `getDeviceList` (lines 122-138): cache hit short-circuits; a miss issues
the request and caches a successful result for 300 s. -/
def getDeviceList (net : Request → Except UnwrapError α) (c : Cache α)
    (pageNum pageSize : Nat) : OpResult α :=
  let key := deviceListKey pageNum pageSize
  match cacheGet c key with
  | some v => ⟨.ok v, c, []⟩
  | none =>
    let req := deviceListReq pageNum pageSize
    match net req with
    | .ok v => ⟨.ok v, cacheSet c key v 300, [req]⟩
    | .error e => ⟨.error e, c, [req]⟩

/-- `getDeviceStatus` (lines 140-155): 30 s TTL. -/
def getDeviceStatus (net : Request → Except UnwrapError α) (c : Cache α)
    (deviceId : String) : OpResult α :=
  let key := deviceStatusKey deviceId
  match cacheGet c key with
  | some v => ⟨.ok v, c, []⟩
  | none =>
    let req := deviceStatusReq deviceId
    match net req with
    | .ok v => ⟨.ok v, cacheSet c key v 30, [req]⟩
    | .error e => ⟨.error e, c, [req]⟩

/-- `controlDevice` (lines 157-176): deletes the device's status cache entry
first (`this.cache.del` precedes the awaited `makeRequest`, so the deletion
happens whatever the network outcome), then issues the write; the result is
never cached. -/
def controlDevice (net : Request → Except UnwrapError α) (c : Cache α)
    (deviceId resourceId : String) (value : JsValue) : OpResult α :=
  let c' := cacheDel c (deviceStatusKey deviceId)
  let req := controlReq deviceId resourceId value
  match net req with
  | .ok v => ⟨.ok v, c', [req]⟩
  | .error e => ⟨.error e, c', [req]⟩

/-- `getSceneList` (lines 178-194): 600 s TTL. -/
def getSceneList (net : Request → Except UnwrapError α) (c : Cache α)
    (pageNum pageSize : Nat) : OpResult α :=
  let key := sceneListKey pageNum pageSize
  match cacheGet c key with
  | some v => ⟨.ok v, c, []⟩
  | none =>
    let req := sceneListReq pageNum pageSize
    match net req with
    | .ok v => ⟨.ok v, cacheSet c key v 600, [req]⟩
    | .error e => ⟨.error e, c, [req]⟩

/-- `executeScene` (lines 196-200): no cache interaction. -/
def executeScene (net : Request → Except UnwrapError α) (c : Cache α)
    (sceneId : String) : OpResult α :=
  let req := sceneRunReq sceneId
  match net req with
  | .ok v => ⟨.ok v, c, [req]⟩
  | .error e => ⟨.error e, c, [req]⟩

/-- `getDeviceHistory` (lines 202-218): no cache interaction. -/
def getDeviceHistory (net : Request → Except UnwrapError α) (c : Cache α)
    (deviceId resourceId startTime endTime : String)
    (pageNum pageSize : Nat) : OpResult α :=
  let req := historyReq deviceId resourceId startTime endTime pageNum pageSize
  match net req with
  | .ok v => ⟨.ok v, c, [req]⟩
  | .error e => ⟨.error e, c, [req]⟩

/-! ## Client-side filters (aqara-client.ts lines 220-235) -/

structure ResourceInfo where
  resourceId : String
  resourceName : String
  access : List String
  unit : Option String
  description : Option String
  deriving Repr, DecidableEq

structure Device where
  did : String
  uid : String
  name : String
  model : String
  modelType : Int
  online : Bool
  firmwareVersion : String
  createTime : Int
  updateTime : Int
  resourceInfo : Option (List ResourceInfo)
  deriving Repr, DecidableEq

/-- `response.data || response.result || []` (line 223): a present array is
truthy (even when empty), so `data` wins whenever it is present. -/
def extractDevices (env : Envelope (List Device)) : List Device :=
  match env.data with
  | some l => l
  | none =>
    match env.result with
    | some l => l
    | none => []

/-- `getDevicesByType` (lines 221-230): one `getDeviceList(1, 100)` fetch,
then a pure filter on `modelType` when the argument is given. -/
def getDevicesByType (net : Request → Except UnwrapError (Envelope (List Device)))
    (c : Cache (Envelope (List Device))) (modelType : Option Int) :
    Except UnwrapError (List Device) × Cache (Envelope (List Device)) × List Request :=
  let r := getDeviceList net c 1 100
  match r.res with
  | .ok env =>
    let devices := extractDevices env
    match modelType with
    | some mt => (.ok (devices.filter (fun d => d.modelType == mt)), r.cache, r.requests)
    | none => (.ok devices, r.cache, r.requests)
  | .error e => (.error e, r.cache, r.requests)

/-- `getOnlineDevices` (lines 232-235): `getDevicesByType()` then a pure
filter on the `online` flag. -/
def getOnlineDevices (net : Request → Except UnwrapError (Envelope (List Device)))
    (c : Cache (Envelope (List Device))) :
    Except UnwrapError (List Device) × Cache (Envelope (List Device)) × List Request :=
  let r := getDevicesByType net c none
  match r.1 with
  | .ok devices => (.ok (devices.filter (fun d => d.online)), r.2.1, r.2.2)
  | .error e => (.error e, r.2.1, r.2.2)

/-! ## SHA-256 and HMAC (the node `crypto` primitives used by `signRequest`)

Executable model of `crypto.createHmac('sha256', key).update(msg).digest('hex')`
over byte lists, with 32-bit words as naturals reduced mod 2^32. -/

def w32 (n : Nat) : Nat := n % 4294967296

def rotr (k x : Nat) : Nat := w32 ((x >>> k) ||| (x <<< (32 - k)))

def chF (x y z : Nat) : Nat := (x &&& y) ^^^ ((x ^^^ 4294967295) &&& z)

def majF (x y z : Nat) : Nat := (x &&& y) ^^^ (x &&& z) ^^^ (y &&& z)

def bigSigma0 (x : Nat) : Nat := rotr 2 x ^^^ rotr 13 x ^^^ rotr 22 x

def bigSigma1 (x : Nat) : Nat := rotr 6 x ^^^ rotr 11 x ^^^ rotr 25 x

def smallSigma0 (x : Nat) : Nat := rotr 7 x ^^^ rotr 18 x ^^^ (x >>> 3)

def smallSigma1 (x : Nat) : Nat := rotr 17 x ^^^ rotr 19 x ^^^ (x >>> 10)

def shaK : List Nat :=
  [1116352408, 1899447441, 3049323471, 3921009573, 961987163,
   1508970993, 2453635748, 2870763221, 3624381080, 310598401,
   607225278, 1426881987, 1925078388, 2162078206, 2614888103,
   3248222580, 3835390401, 4022224774, 264347078, 604807628,
   770255983, 1249150122, 1555081692, 1996064986, 2554220882,
   2821834349, 2952996808, 3210313671, 3336571891, 3584528711,
   113926993, 338241895, 666307205, 773529912, 1294757372,
   1396182291, 1695183700, 1986661051, 2177026350, 2456956037,
   2730485921, 2820302411, 3259730800, 3345764771, 3516065817,
   3600352804, 4094571909, 275423344, 430227734, 506948616,
   659060556, 883997877, 958139571, 1322822218, 1537002063,
   1747873779, 1955562222, 2024104815, 2227730452, 2361852424,
   2428436474, 2756734187, 3204031479, 3329325298]

def shaH0 : List Nat :=
  [1779033703, 3144134277, 1013904242, 2773480762,
   1359893119, 2600822924, 528734635, 1541459225]

/-- `k` bytes of `n`, big-endian. -/
def beBytes : Nat → Nat → List Nat
  | 0, _ => []
  | k + 1, n => beBytes k (n >>> 8) ++ [n &&& 255]

def bytesToWords : List Nat → List Nat
  | b0 :: b1 :: b2 :: b3 :: rest =>
    ((b0 <<< 24) + (b1 <<< 16) + (b2 <<< 8) + b3) :: bytesToWords rest
  | _ => []

def extendSchedule : List Nat → Nat → List Nat
  | w, 0 => w
  | w, k + 1 =>
    let wt := w32 (smallSigma1 (w.getD (w.length - 2) 0) + w.getD (w.length - 7) 0 +
      smallSigma0 (w.getD (w.length - 15) 0) + w.getD (w.length - 16) 0)
    extendSchedule (w ++ [wt]) k

def shaRound : List Nat → Nat × Nat → List Nat
  | [a, b, c, d, e, f, g, h], (kt, wt) =>
    let t1 := w32 (h + bigSigma1 e + chF e f g + kt + wt)
    let t2 := w32 (bigSigma0 a + majF a b c)
    [w32 (t1 + t2), a, b, c, w32 (d + t1), e, f, g]
  | s, _ => s

def processBlock (h : List Nat) (block : List Nat) : List Nat :=
  let w := extendSchedule (bytesToWords block) 48
  let s := (shaK.zip w).foldl shaRound h
  List.zipWith (fun x y => w32 (x + y)) h s

def chunks64Aux : Nat → List Nat → List (List Nat)
  | 0, _ => []
  | fuel + 1, l => if l.isEmpty then [] else l.take 64 :: chunks64Aux fuel (l.drop 64)

def chunks64 (l : List Nat) : List (List Nat) := chunks64Aux (l.length + 1) l

def sha256 (msg : List Nat) : List Nat :=
  let padded := msg ++ 0x80 :: (List.replicate ((119 - msg.length % 64) % 64) 0 ++
    beBytes 8 (8 * msg.length))
  ((chunks64 padded).foldl processBlock shaH0).map (beBytes 4) |>.flatten

def hmacSha256 (key msg : List Nat) : List Nat :=
  let k0 := if key.length > 64 then sha256 key else key
  let k := k0 ++ List.replicate (64 - k0.length) 0
  sha256 ((k.map (fun b => b ^^^ 0x5c)) ++ sha256 ((k.map (fun b => b ^^^ 0x36)) ++ msg))

def hexDigit (d : Nat) : Char := if d < 10 then Char.ofNat (48 + d) else Char.ofNat (87 + d)

def bytesToHex (bs : List Nat) : String :=
  String.join (bs.map (fun b => String.mk [hexDigit (b / 16), hexDigit (b % 16)]))

def strBytes (s : String) : List Nat := s.toUTF8.toList.map (fun b => b.toNat)

/-! ## Request signing (`signRequest`, aqara-client.ts lines 68-109) -/

/-- `AqaraConfig` (types.ts lines 3-10); `region` as a plain string since
`index.ts` casts the raw environment value into it. -/
structure AqaraConfig where
  appId : String
  appKey : String
  keyId : String
  appSecret : String
  region : String
  accessToken : Option String

/-- JS truthiness of `this.config.accessToken` (line 75): present and
nonempty. -/
def tokenTruthy (cfg : AqaraConfig) : Bool :=
  match cfg.accessToken with
  | some t => !(t == "")
  | none => false

/-- The model of `Array.prototype.join('&')`. -/
def joinAmp : List String → String
  | [] => ""
  | [x] => x
  | x :: xs => x ++ "&" ++ joinAmp xs

/-- The `signParams` array as pushed in lines 73-84. -/
def signParams (cfg : AqaraConfig) (nonce timestamp : String) : List String :=
  (match cfg.accessToken with
   | some t => if t == "" then [] else ["accesstoken=" ++ t.toLower]
   | none => []) ++
  ["appid=" ++ cfg.appId.toLower,
   "keyid=" ++ cfg.keyId.toLower,
   "nonce=" ++ nonce.toLower,
   "time=" ++ timestamp]

def signString (cfg : AqaraConfig) (nonce timestamp : String) : String :=
  joinAmp (signParams cfg nonce timestamp)

/-- The `Sign` header value (lines 87-90):
`crypto.createHmac('sha256', appSecret).update(signString).digest('hex')`. -/
def signOf (cfg : AqaraConfig) (nonce timestamp : String) : String :=
  bytesToHex (hmacSha256 (strBytes cfg.appSecret) (strBytes (signString cfg nonce timestamp)))

/-- The headers attached by `signRequest` (lines 97-106). -/
def signedHeaders (cfg : AqaraConfig) (nonce timestamp : String) : List (String × String) :=
  [("Appid", cfg.appId), ("Keyid", cfg.keyId), ("Nonce", nonce), ("Time", timestamp),
   ("Sign", signOf cfg nonce timestamp), ("Lang", "en")] ++
  (match cfg.accessToken with
   | some t => if t == "" then [] else [("Accesstoken", t)]
   | none => [])

/-- The sign-string exactly as the specification's words lay it out:
`accesstoken=<token lower-cased>` first when a token is configured, then
`appid=`, `keyid=`, `nonce=` (lower-cased) and `time=` (not lower-cased),
joined with `&`. Stated independently of `signParams`/`joinAmp` for
comparison with the source-derived `signString`. -/
def signStringSpec (cfg : AqaraConfig) (nonce timestamp : String) : String :=
  (if tokenTruthy cfg then
     "accesstoken=" ++ (match cfg.accessToken with | some t => t.toLower | none => "") ++ "&"
   else "") ++
  "appid=" ++ cfg.appId.toLower ++ "&" ++
  "keyid=" ++ cfg.keyId.toLower ++ "&" ++
  "nonce=" ++ nonce.toLower ++ "&" ++
  "time=" ++ timestamp

/-! ## Time-string handling (`parseTimeString`, utils.ts lines 347-359)

`parseTimeString` runs `new Date(timeStr)`, rejects `NaN` time values, and
returns `date.toISOString()`. The `Date` constructor and `toISOString` are
ECMAScript built-ins; they are modelled here restricted to the ISO-8601
date-time forms this layer deals in (`YYYY-MM-DD`, with optional
`THH:MM:SS[.mmm]Z` suffix, field ranges validated as V8 does for ISO input).
Strings outside this subset — such as `"not-a-date"`, which yields an
invalid `Date` in JS — are modelled as unparsable. `toISOString` always
renders the canonical 24-character form with a millisecond field. -/

structure DateTimeV where
  year : Nat
  month : Nat
  day : Nat
  hour : Nat
  minute : Nat
  second : Nat
  ms : Nat
  deriving Repr, DecidableEq

def parseDigitsAux (acc : Nat) : Nat → List Char → Option (Nat × List Char)
  | 0, cs => some (acc, cs)
  | k + 1, c :: cs =>
    if c.isDigit then parseDigitsAux (10 * acc + (c.toNat - 48)) k cs else none
  | _ + 1, [] => none

def parseNDigits (n : Nat) (cs : List Char) : Option (Nat × List Char) :=
  parseDigitsAux 0 n cs

def expectChar (ch : Char) : List Char → Option (List Char)
  | c :: cs => if c == ch then some cs else none
  | [] => none

def isLeapYear (y : Nat) : Bool :=
  (y % 4 == 0 && y % 100 != 0) || y % 400 == 0

def daysInMonth (y m : Nat) : Nat :=
  if m == 2 then (if isLeapYear y then 29 else 28)
  else if m == 4 || m == 6 || m == 9 || m == 11 then 30
  else 31

def parseTimePart (y mo d : Nat) : List Char → Option DateTimeV
  | [] => some ⟨y, mo, d, 0, 0, 0, 0⟩
  | 'T' :: r =>
    (parseNDigits 2 r).bind fun (h, r1) =>
    (expectChar ':' r1).bind fun r2 =>
    (parseNDigits 2 r2).bind fun (mi, r3) =>
    (expectChar ':' r3).bind fun r4 =>
    (parseNDigits 2 r4).bind fun (s, r5) =>
    if h ≤ 23 && mi ≤ 59 && s ≤ 59 then
      match r5 with
      | ['Z'] => some ⟨y, mo, d, h, mi, s, 0⟩
      | '.' :: r6 =>
        (parseNDigits 3 r6).bind fun (ms, r7) =>
        match r7 with
        | ['Z'] => some ⟨y, mo, d, h, mi, s, ms⟩
        | _ => none
      | _ => none
    else none
  | _ => none

/-- The modelled `new Date(s)` on ISO-8601 input: `none` is an invalid
date (`NaN` time value). -/
def parseISODate (s : String) : Option DateTimeV :=
  (parseNDigits 4 s.data).bind fun (y, r1) =>
  (expectChar '-' r1).bind fun r2 =>
  (parseNDigits 2 r2).bind fun (mo, r3) =>
  (expectChar '-' r3).bind fun r4 =>
  (parseNDigits 2 r4).bind fun (d, r5) =>
  if 1 ≤ mo && mo ≤ 12 && 1 ≤ d && d ≤ daysInMonth y mo then
    parseTimePart y mo d r5
  else none

def pad2 (n : Nat) : String := if n < 10 then "0" ++ natStr n else natStr n

def pad3 (n : Nat) : String :=
  if n < 10 then "00" ++ natStr n else if n < 100 then "0" ++ natStr n else natStr n

def pad4 (n : Nat) : String :=
  if n < 10 then "000" ++ natStr n
  else if n < 100 then "00" ++ natStr n
  else if n < 1000 then "0" ++ natStr n
  else natStr n

/-- The modelled `Date.prototype.toISOString`: always the canonical
`YYYY-MM-DDTHH:MM:SS.mmmZ` rendering (milliseconds included). -/
def toISOStringV (v : DateTimeV) : String :=
  pad4 v.year ++ "-" ++ pad2 v.month ++ "-" ++ pad2 v.day ++ "T" ++
  pad2 v.hour ++ ":" ++ pad2 v.minute ++ ":" ++ pad2 v.second ++ "." ++
  pad3 v.ms ++ "Z"

/-- `parseTimeString` (utils.ts lines 347-359). -/
def parseTimeString (timeStr : String) : Except String String :=
  match parseISODate timeStr with
  | some d => .ok (toISOStringV d)
  | none => .error "Invalid time format. Please use ISO 8601 format (e.g., \"2024-01-01T00:00:00Z\") or standard date strings."

/-- The `get_device_history` tool's `execute` (index.ts lines 445-471): both
time strings are validated and normalized by `parseTimeString` before
`getDeviceHistory` is invoked; a validation failure is caught and rendered by
`formatError` (`Error: <message>` for a plain `Error`), and no request is
issued. -/
def getDeviceHistoryTool (net : Request → Except UnwrapError α) (c : Cache α)
    (deviceId resourceId startTime endTime : String) (pageNum pageSize : Nat) :
    Except String (Except UnwrapError α) × Cache α × List Request :=
  match parseTimeString startTime with
  | .error m => (.error ("Error: " ++ m), c, [])
  | .ok st =>
    match parseTimeString endTime with
    | .error m => (.error ("Error: " ++ m), c, [])
    | .ok et =>
      let r := getDeviceHistory net c deviceId resourceId st et pageNum pageSize
      (.ok r.res, r.cache, r.requests)

/-! ## Helper lemmas -/

theorem cacheGet_cacheDel_self (c : Cache α) (k : String) :
    cacheGet (cacheDel c k) k = none := by
  have hfind : List.find? (fun e => e.1 == k) (cacheDel c k) = none := by
    rw [List.find?_eq_none]
    intro x hx
    rcases List.mem_filter.mp hx with ⟨_, h2⟩
    simpa using h2
  simp [cacheGet, hfind]

theorem controlDevice_cache (net : Request → Except UnwrapError α) (c : Cache α)
    (deviceId resourceId : String) (value : JsValue) :
    (controlDevice net c deviceId resourceId value).cache
      = cacheDel c (deviceStatusKey deviceId) := by
  cases h : net (controlReq deviceId resourceId value) with
  | ok v => simp [controlDevice, h]
  | error e => simp [controlDevice, h]

/-! ## Claim theorems -/

/-- Claim C2: unwrapping a transport body that is an envelope returns success
with the `result`/`data` fields passed through unchanged when `code = 0`,
raises an `AqaraError` carrying exactly the envelope's code, message,
msgDetails and requestId when `code ≠ 0`, and raises a distinct
non-application error when the transport returned no body at all. -/
theorem handleAqaraResponse_correct {T : Type} (env : Envelope T) :
    (env.code = 0 → handleAqaraResponse (some env) = .ok env) ∧
    (env.code = 0 → ∀ res, handleAqaraResponse (some env) = .ok res →
      res.result = env.result ∧ res.data = env.data) ∧
    (env.code ≠ 0 → handleAqaraResponse (some env) =
      .error (.aqara env.code env.message env.msgDetails env.requestId)) ∧
    handleAqaraResponse (T := T) none =
      .error (.invalidFormat "Invalid response format from Aqara API") ∧
    (∀ code message details requestId,
      UnwrapError.invalidFormat "Invalid response format from Aqara API" ≠
        .aqara code message details requestId) := by
  refine ⟨?_, ?_, ?_, rfl, ?_⟩
  · intro h
    simp [handleAqaraResponse, h]
  · intro h res hres
    simp [handleAqaraResponse, h] at hres
    simp [← hres]
  · intro h
    simp [handleAqaraResponse, h]
  · intro code message details requestId h
    cases h

/-- Claim C8 counterexample: `"constructor"` is a region string outside the
six-key set, yet `domains["constructor"] || domains.usa` does not select the
`usa` base URL — the plain object literal inherits a truthy `constructor`
value from `Object.prototype`, and `||` returns it. -/
theorem getBaseURL_prototype_leak :
    "constructor" ∉ regionKeys ∧
    getBaseURL "constructor" = .inherited "constructor" ∧
    getBaseURL "constructor" ≠ .url "https://open-usa.aqara.com" := by
  refine ⟨by decide, by decide, by decide⟩

/-- Claim C8 (amended): the region table maps the six region strings `cn`,
`usa`, `eu`, `kr`, `ru`, `sg` to six distinct base URLs; every other region
string — including the unset region, which `index.ts` defaults to `"usa"` —
selects the `usa` base URL, except the twelve `Object.prototype` property
names, for which the lookup yields the truthy inherited value (never a
URL string) instead of falling back. -/
theorem getBaseURL_table_amended :
    regionKeys.map getBaseURL =
      [.url "https://open-cn.aqara.com", .url "https://open-usa.aqara.com",
       .url "https://open-ger.aqara.com", .url "https://open-kr.aqara.com",
       .url "https://open-ru.aqara.com", .url "https://open-sg.aqara.com"] ∧
    (regionKeys.map getBaseURL).Nodup ∧
    (∀ r, r ∉ regionKeys → r ∉ objectProtoProps →
      getBaseURL r = .url "https://open-usa.aqara.com") ∧
    (∀ r ∈ objectProtoProps, r ∉ regionKeys ∧ getBaseURL r = .inherited r) ∧
    (∀ s u, BaseURLResult.inherited s ≠ .url u) ∧
    getBaseURL (configuredRegion none) = getBaseURL "usa" := by
  refine ⟨by decide, by decide, ?_, by decide, ?_, by decide⟩
  · intro r hr hp
    simp only [regionKeys, List.mem_cons, List.not_mem_nil, or_false, not_or] at hr
    obtain ⟨h1, h2, h3, h4, h5, h6⟩ := hr
    have e1 : (r == "cn") = false := beq_eq_false_iff_ne.mpr h1
    have e2 : (r == "usa") = false := beq_eq_false_iff_ne.mpr h2
    have e3 : (r == "eu") = false := beq_eq_false_iff_ne.mpr h3
    have e4 : (r == "kr") = false := beq_eq_false_iff_ne.mpr h4
    have e5 : (r == "ru") = false := beq_eq_false_iff_ne.mpr h5
    have e6 : (r == "sg") = false := beq_eq_false_iff_ne.mpr h6
    simp [getBaseURL, domains, List.lookup, e1, e2, e3, e4, e5, e6, hp]
  · intro s u h
    cases h

/-- Claim C7: startup validation fails exactly when one of the four mandatory
environment credentials is absent (or JS-falsy empty); the error message is
built from precisely the missing variables and none of the others, the
process only starts when validation passes, and nothing is raised when all
four are present. -/
theorem validateEnvironment_correct (env : String → Option String) :
    (validateEnvironment env = .ok () ↔ missingVars env = []) ∧
    (∀ m, validateEnvironment env = .error m → m = missingMessage (missingVars env)) ∧
    (∀ v, v ∈ missingVars env ↔ v ∈ requiredEnvVars ∧ envMissing env v = true) ∧
    ((∀ v ∈ requiredEnvVars, envMissing env v = false) → validateEnvironment env = .ok ()) ∧
    (serverStarts env = true ↔ validateEnvironment env = .ok ()) := by
  refine ⟨?_, ?_, ?_, ?_, ?_⟩
  · cases hl : missingVars env with
    | nil => simp [validateEnvironment, hl]
    | cons a t => simp [validateEnvironment, hl]
  · intro m hm
    cases hl : missingVars env with
    | nil => simp [validateEnvironment, hl] at hm
    | cons a t =>
      simp [validateEnvironment, hl] at hm
      simp [hm, hl]
  · intro v
    exact List.mem_filter
  · intro hall
    have hl : missingVars env = [] := by
      rw [missingVars, List.filter_eq_nil_iff]
      intro v hv
      simp [hall v hv]
    simp [validateEnvironment, hl]
  · unfold serverStarts
    cases hv : validateEnvironment env with
    | ok u => cases u; simp
    | error m => simp

/-- Claim C3: a control-device call deletes device D's status cache entry
before, and independently of the outcome of, its own network call (the
network oracle `net` is arbitrary, so this covers failing calls too); a
get-device-status(D) issued afterwards therefore finds no cached entry,
issues its own network request, and returns that fresh response rather than
anything cached before the control call. -/
theorem controlDevice_invalidates_status (net net2 : Request → Except UnwrapError α)
    (c : Cache α) (deviceId resourceId : String) (value : JsValue) :
    cacheGet (controlDevice net c deviceId resourceId value).cache
      (deviceStatusKey deviceId) = none ∧
    (getDeviceStatus net2 (controlDevice net c deviceId resourceId value).cache
      deviceId).requests = [deviceStatusReq deviceId] ∧
    (getDeviceStatus net2 (controlDevice net c deviceId resourceId value).cache
      deviceId).res = net2 (deviceStatusReq deviceId) := by
  have hmiss : cacheGet (controlDevice net c deviceId resourceId value).cache
      (deviceStatusKey deviceId) = none := by
    rw [controlDevice_cache]
    exact cacheGet_cacheDel_self c (deviceStatusKey deviceId)
  refine ⟨hmiss, ?_, ?_⟩ <;>
  · simp only [getDeviceStatus, hmiss]
    cases h : net2 (deviceStatusReq deviceId) <;> simp [h]

/-- Claim C6: on a cache miss followed by a successful remote call,
list-devices stores its result under its key with a 300 s TTL, device-status
with 30 s, scene-list with 600 s; history fetch and scene execution leave
the cache untouched, and device control only deletes (never stores). -/
theorem cache_ttl_policy :
    (∀ (α : Type) (net : Request → Except UnwrapError α) (c : Cache α) (p s : Nat) (v : α),
      cacheGet c (deviceListKey p s) = none → net (deviceListReq p s) = .ok v →
      (getDeviceList net c p s).cache = cacheSet c (deviceListKey p s) v 300) ∧
    (∀ (α : Type) (net : Request → Except UnwrapError α) (c : Cache α) (d : String) (v : α),
      cacheGet c (deviceStatusKey d) = none → net (deviceStatusReq d) = .ok v →
      (getDeviceStatus net c d).cache = cacheSet c (deviceStatusKey d) v 30) ∧
    (∀ (α : Type) (net : Request → Except UnwrapError α) (c : Cache α) (p s : Nat) (v : α),
      cacheGet c (sceneListKey p s) = none → net (sceneListReq p s) = .ok v →
      (getSceneList net c p s).cache = cacheSet c (sceneListKey p s) v 600) ∧
    (∀ (α : Type) (net : Request → Except UnwrapError α) (c : Cache α)
      (d r st et : String) (p s : Nat),
      (getDeviceHistory net c d r st et p s).cache = c) ∧
    (∀ (α : Type) (net : Request → Except UnwrapError α) (c : Cache α) (sceneId : String),
      (executeScene net c sceneId).cache = c) ∧
    (∀ (α : Type) (net : Request → Except UnwrapError α) (c : Cache α)
      (d r : String) (v : JsValue),
      (controlDevice net c d r v).cache = cacheDel c (deviceStatusKey d)) := by
  refine ⟨?_, ?_, ?_, ?_, ?_, ?_⟩
  · intro α net c p s v hmiss hok
    simp [getDeviceList, hmiss, hok]
  · intro α net c d v hmiss hok
    simp [getDeviceStatus, hmiss, hok]
  · intro α net c p s v hmiss hok
    simp [getSceneList, hmiss, hok]
  · intro α net c d r st et p s
    unfold getDeviceHistory
    cases h : net (historyReq d r st et p s) <;> simp [h]
  · intro α net c sceneId
    unfold executeScene
    cases h : net (sceneRunReq sceneId) <;> simp [h]
  · intro α net c d r v
    exact controlDevice_cache net c d r v

/-- Claim C9: `getDevicesByType` performs one list fetch, extracts the device
list as `data` if present, else `result`, else `[]`, and filters it purely
client-side by `modelType` (returning everything when the filter is omitted);
`getOnlineDevices` filters the same extraction by the `online` flag; neither
issues any request beyond the single (possibly cache-satisfied) list fetch. -/
theorem getDevicesByType_correct (net : Request → Except UnwrapError (Envelope (List Device)))
    (c : Cache (Envelope (List Device))) :
    (∀ env, (getDeviceList net c 1 100).res = .ok env →
      (getDevicesByType net c none).1 = .ok (extractDevices env) ∧
      (∀ mt, (getDevicesByType net c (some mt)).1 =
        .ok ((extractDevices env).filter (fun d => d.modelType == mt))) ∧
      (getOnlineDevices net c).1 = .ok ((extractDevices env).filter (fun d => d.online))) ∧
    (∀ env l, env.data = some l → extractDevices env = l) ∧
    (∀ env l, env.data = none → env.result = some l → extractDevices env = l) ∧
    (∀ env, env.data = none → env.result = none → extractDevices env = []) ∧
    (∀ mt, (getDevicesByType net c mt).2.2 = (getDeviceList net c 1 100).requests) ∧
    (getOnlineDevices net c).2.2 = (getDeviceList net c 1 100).requests ∧
    (getDeviceList net c 1 100).requests.length ≤ 1 := by
  refine ⟨?_, ?_, ?_, ?_, ?_, ?_, ?_⟩
  · intro env hok
    refine ⟨?_, ?_, ?_⟩
    · simp [getDevicesByType, hok]
    · intro mt
      simp [getDevicesByType, hok]
    · simp [getOnlineDevices, getDevicesByType, hok]
  · intro env l h
    simp [extractDevices, h]
  · intro env l h1 h2
    simp [extractDevices, h1, h2]
  · intro env h1 h2
    simp [extractDevices, h1, h2]
  · intro mt
    cases hok : (getDeviceList net c 1 100).res with
    | ok env => cases mt <;> simp [getDevicesByType, hok]
    | error e => cases mt <;> simp [getDevicesByType, hok]
  · cases hok : (getDeviceList net c 1 100).res with
    | ok env => simp [getOnlineDevices, getDevicesByType, hok]
    | error e => simp [getOnlineDevices, getDevicesByType, hok]
  · unfold getDeviceList
    cases h : cacheGet c (deviceListKey 1 100) with
    | some v => simp [h]
    | none => cases h2 : net (deviceListReq 1 100) <;> simp [h, h2]

/-! ## Decimal-rendering lemmas (for cache-key injectivity) -/

theorem natDigitsAux_irrel :
    ∀ (fuel : Nat) (n fuel2 : Nat), n < fuel → n < fuel2 →
      natDigitsAux fuel n = natDigitsAux fuel2 n := by
  intro fuel
  induction fuel with
  | zero => intro n fuel2 h _; omega
  | succ f ih =>
    intro n fuel2 h1 h2
    cases fuel2 with
    | zero => omega
    | succ f2 =>
      simp only [natDigitsAux]
      by_cases h10 : n < 10
      · simp [h10]
      · rw [if_neg h10, if_neg h10]
        have hlt : n / 10 < n := Nat.div_lt_self (by omega) (by omega)
        rw [ih (n / 10) f2 (by omega) (by omega)]

theorem natDigitsAux_succ (fuel n : Nat) :
    natDigitsAux (fuel + 1) n =
      if n < 10 then [n] else natDigitsAux fuel (n / 10) ++ [n % 10] := rfl

theorem natDigits_eq (n : Nat) :
    natDigits n = if n < 10 then [n] else natDigits (n / 10) ++ [n % 10] := by
  by_cases h10 : n < 10
  · rw [natDigits, natDigitsAux_succ, if_pos h10, if_pos h10]
  · rw [natDigits, natDigitsAux_succ, if_neg h10, if_neg h10]
    have hlt : n / 10 < n := Nat.div_lt_self (by omega) (by omega)
    rw [natDigitsAux_irrel n (n / 10) (n / 10 + 1) (by omega) (by omega)]
    rfl

def digitsVal (l : List Nat) : Nat := l.foldl (fun a d => 10 * a + d) 0

theorem digitsVal_append_single (xs : List Nat) (d : Nat) :
    digitsVal (xs ++ [d]) = 10 * digitsVal xs + d := by
  simp [digitsVal, List.foldl_append]

theorem digitsVal_natDigits (n : Nat) : digitsVal (natDigits n) = n := by
  induction n using Nat.strong_induction_on with
  | _ n ih =>
    rw [natDigits_eq]
    by_cases h10 : n < 10
    · simp [h10, digitsVal]
    · rw [if_neg h10, digitsVal_append_single,
        ih (n / 10) (Nat.div_lt_self (by omega) (by omega))]
      omega

theorem natDigits_lt (n : Nat) : ∀ d ∈ natDigits n, d < 10 := by
  induction n using Nat.strong_induction_on with
  | _ n ih =>
    rw [natDigits_eq]
    by_cases h10 : n < 10
    · simp [h10]
    · rw [if_neg h10]
      intro d hd
      rcases List.mem_append.mp hd with h | h
      · exact ih (n / 10) (Nat.div_lt_self (by omega) (by omega)) d h
      · simp at h
        omega

theorem digitChar_inj_lt : ∀ a < 10, ∀ b < 10, digitChar a = digitChar b → a = b := by
  decide

theorem digitChar_ne_underscore : ∀ d < 10, digitChar d ≠ '_' := by
  decide

theorem map_digitChar_inj :
    ∀ (l1 l2 : List Nat), (∀ d ∈ l1, d < 10) → (∀ d ∈ l2, d < 10) →
      l1.map digitChar = l2.map digitChar → l1 = l2 := by
  intro l1
  induction l1 with
  | nil =>
    intro l2 _ _ h
    cases l2 with
    | nil => rfl
    | cons b u => simp at h
  | cons a t ih =>
    intro l2 h1 h2 h
    cases l2 with
    | nil => simp at h
    | cons b u =>
      simp only [List.map_cons, List.cons.injEq] at h
      have hab : a = b :=
        digitChar_inj_lt a (h1 a (by simp)) b (h2 b (by simp)) h.1
      have htu : t = u :=
        ih u (fun d hd => h1 d (by simp [hd])) (fun d hd => h2 d (by simp [hd])) h.2
      rw [hab, htu]

theorem natStr_data (n : Nat) : (natStr n).data = (natDigits n).map digitChar := rfl

theorem natStr_inj (m n : Nat) (h : natStr m = natStr n) : m = n := by
  have h2 : (natDigits m).map digitChar = (natDigits n).map digitChar := by
    have := congrArg String.data h
    rwa [natStr_data, natStr_data] at this
  have h3 := map_digitChar_inj _ _ (natDigits_lt m) (natDigits_lt n) h2
  have h4 := congrArg digitsVal h3
  rwa [digitsVal_natDigits, digitsVal_natDigits] at h4

theorem underscore_not_mem_natStr (n : Nat) : '_' ∉ (natStr n).data := by
  rw [natStr_data]
  intro h
  rcases List.mem_map.mp h with ⟨d, hd, hdc⟩
  exact digitChar_ne_underscore d (natDigits_lt n d hd) hdc

theorem append_sep_inj :
    ∀ (xs xs2 ys ys2 : List Char), '_' ∉ xs → '_' ∉ xs2 →
      xs ++ '_' :: ys = xs2 ++ '_' :: ys2 → xs = xs2 ∧ ys = ys2 := by
  intro xs
  induction xs with
  | nil =>
    intro xs2 ys ys2 _ h2 h
    cases xs2 with
    | nil => simpa using h
    | cons b u =>
      exfalso
      simp only [List.nil_append, List.cons_append, List.cons.injEq] at h
      exact h2 (h.1 ▸ List.mem_cons_self b u)
  | cons a t ih =>
    intro xs2 ys ys2 h1 h2 h
    cases xs2 with
    | nil =>
      exfalso
      simp only [List.nil_append, List.cons_append, List.cons.injEq] at h
      exact h1 (h.1 ▸ List.mem_cons_self a t)
    | cons b u =>
      simp only [List.cons_append, List.cons.injEq] at h
      have := ih u ys ys2 (fun hm => h1 (List.mem_cons_of_mem a hm))
        (fun hm => h2 (List.mem_cons_of_mem b hm)) h.2
      exact ⟨by rw [h.1, this.1], this.2⟩

theorem deviceListKey_data (p s : Nat) :
    (deviceListKey p s).data =
      'd' :: 'e' :: 'v' :: 'i' :: 'c' :: 'e' :: 's' :: '_' ::
        ((natStr p).data ++ '_' :: (natStr s).data) := by
  simp only [deviceListKey, String.data_append, List.append_assoc]
  rfl

theorem sceneListKey_data (p s : Nat) :
    (sceneListKey p s).data =
      's' :: 'c' :: 'e' :: 'n' :: 'e' :: 's' :: '_' ::
        ((natStr p).data ++ '_' :: (natStr s).data) := by
  simp only [sceneListKey, String.data_append, List.append_assoc]
  rfl

theorem deviceStatusKey_data (d : String) :
    (deviceStatusKey d).data =
      'd' :: 'e' :: 'v' :: 'i' :: 'c' :: 'e' :: '_' :: 's' :: 't' :: 'a' :: 't' ::
        'u' :: 's' :: '_' :: d.data := by
  simp only [deviceStatusKey, String.data_append]
  rfl

/-- Claim C10: cache keys are injective across operations and parameters:
the `devices_`, `device_status_` and `scenes_` key families are pairwise
disjoint, and within each family distinct parameter tuples (page/pageSize
pairs, or device ids) produce distinct keys. -/
theorem cacheKeys_injective :
    (∀ p s q t, deviceListKey p s = deviceListKey q t → p = q ∧ s = t) ∧
    (∀ p s q t, sceneListKey p s = sceneListKey q t → p = q ∧ s = t) ∧
    (∀ d e, deviceStatusKey d = deviceStatusKey e → d = e) ∧
    (∀ p s d, deviceListKey p s ≠ deviceStatusKey d) ∧
    (∀ p s q t, deviceListKey p s ≠ sceneListKey q t) ∧
    (∀ d q t, deviceStatusKey d ≠ sceneListKey q t) := by
  refine ⟨?_, ?_, ?_, ?_, ?_, ?_⟩
  · intro p s q t h
    have hd := congrArg String.data h
    rw [deviceListKey_data, deviceListKey_data] at hd
    simp only [List.cons.injEq, true_and] at hd
    obtain ⟨h1, h2⟩ := append_sep_inj _ _ _ _
      (underscore_not_mem_natStr p) (underscore_not_mem_natStr q) hd
    exact ⟨natStr_inj p q (String.ext h1), natStr_inj s t (String.ext h2)⟩
  · intro p s q t h
    have hd := congrArg String.data h
    rw [sceneListKey_data, sceneListKey_data] at hd
    simp only [List.cons.injEq, true_and] at hd
    obtain ⟨h1, h2⟩ := append_sep_inj _ _ _ _
      (underscore_not_mem_natStr p) (underscore_not_mem_natStr q) hd
    exact ⟨natStr_inj p q (String.ext h1), natStr_inj s t (String.ext h2)⟩
  · intro d e h
    have hd := congrArg String.data h
    rw [deviceStatusKey_data, deviceStatusKey_data] at hd
    simp only [List.cons.injEq, true_and] at hd
    exact String.ext hd
  · intro p s d h
    have hd := congrArg String.data h
    rw [deviceListKey_data, deviceStatusKey_data] at hd
    simp at hd
  · intro p s q t h
    have hd := congrArg String.data h
    rw [deviceListKey_data, sceneListKey_data] at hd
    simp at hd
  · intro d q t h
    have hd := congrArg String.data h
    rw [deviceStatusKey_data, sceneListKey_data] at hd
    simp at hd

/-- Claim C1: the sign-string is exactly the `&`-joined fixed-order
concatenation the spec describes — `accesstoken=<token.toLower>` first
exactly when a (truthy) token is configured, then `appid=`, `keyid=`,
`nonce=` lower-cased and `time=` not lower-cased — the signature is the
hex HMAC-SHA256 of that string keyed by the app secret, and without a token
the four fields `appid`, `keyid`, `nonce`, `time` appear in that order and
nothing else. -/
theorem signRequest_correct (cfg : AqaraConfig) (nonce timestamp : String) :
    signString cfg nonce timestamp = signStringSpec cfg nonce timestamp ∧
    signOf cfg nonce timestamp = bytesToHex (hmacSha256 (strBytes cfg.appSecret)
      (strBytes (signStringSpec cfg nonce timestamp))) ∧
    (tokenTruthy cfg = false → signParams cfg nonce timestamp =
      ["appid=" ++ cfg.appId.toLower, "keyid=" ++ cfg.keyId.toLower,
       "nonce=" ++ nonce.toLower, "time=" ++ timestamp]) ∧
    (∀ tk, cfg.accessToken = some tk → tk ≠ "" → signParams cfg nonce timestamp =
      ("accesstoken=" ++ tk.toLower) ::
        ["appid=" ++ cfg.appId.toLower, "keyid=" ++ cfg.keyId.toLower,
         "nonce=" ++ nonce.toLower, "time=" ++ timestamp]) := by
  have k1 : ∀ x : String, "&" ++ ("appid=" ++ x) = "&appid=" ++ x := fun x => by
    rw [← String.append_assoc, show ("&" : String) ++ "appid=" = "&appid=" by decide]
  have k2 : ∀ x : String, "&" ++ ("keyid=" ++ x) = "&keyid=" ++ x := fun x => by
    rw [← String.append_assoc, show ("&" : String) ++ "keyid=" = "&keyid=" by decide]
  have k3 : ∀ x : String, "&" ++ ("nonce=" ++ x) = "&nonce=" ++ x := fun x => by
    rw [← String.append_assoc, show ("&" : String) ++ "nonce=" = "&nonce=" by decide]
  have k4 : ∀ x : String, "&" ++ ("time=" ++ x) = "&time=" ++ x := fun x => by
    rw [← String.append_assoc, show ("&" : String) ++ "time=" = "&time=" by decide]
  have hmain : signString cfg nonce timestamp = signStringSpec cfg nonce timestamp := by
    cases hA : cfg.accessToken with
    | none =>
      simp [signString, signParams, signStringSpec, tokenTruthy, hA, joinAmp,
        String.append_assoc, k1, k2, k3, k4]
    | some tk =>
      by_cases hE : tk = ""
      · simp [signString, signParams, signStringSpec, tokenTruthy, hA, hE, joinAmp,
          String.append_assoc, k1, k2, k3, k4]
      · have hbe : (tk == "") = false := beq_eq_false_iff_ne.mpr hE
        simp [signString, signParams, signStringSpec, tokenTruthy, hA, hbe, joinAmp,
          String.append_assoc, k1, k2, k3, k4]
  refine ⟨hmain, ?_, ?_, ?_⟩
  · rw [signOf, hmain]
  · intro hf
    cases hA : cfg.accessToken with
    | none => simp [signParams, hA]
    | some tk =>
      rw [tokenTruthy, hA] at hf
      simp only [Bool.not_eq_false'] at hf
      simp [signParams, hA, hf]
  · intro tk hA hE
    have hbe : (tk == "") = false := beq_eq_false_iff_ne.mpr hE
    simp [signParams, hA, hbe]

/-- Claim C4 counterexample: `parseTimeString` does not forward an already
ISO-8601 `startTime` verbatim — `"2024-01-01T00:00:00Z"` is normalized by
`toISOString` to `"2024-01-01T00:00:00.000Z"` (milliseconds appended), and
that is what reaches the vendor request body. -/
theorem parseTimeString_not_verbatim :
    parseTimeString "2024-01-01T00:00:00Z" = .ok "2024-01-01T00:00:00.000Z" ∧
    (getDeviceHistoryTool (fun _ => .ok 0) ([] : Cache Nat) "d" "r"
      "2024-01-01T00:00:00Z" "2024-01-02T00:00:00Z" 1 100).2.2 =
      [historyReq "d" "r" "2024-01-01T00:00:00.000Z" "2024-01-02T00:00:00.000Z" 1 100] ∧
    "2024-01-01T00:00:00.000Z" ≠ "2024-01-01T00:00:00Z" := by
  refine ⟨rfl, rfl, by decide⟩

/-- Claim C4 (amended): a history fetch whose `startTime` is not ISO-8601
(e.g. `"not-a-date"`) is rejected with a validation error before any network
request is issued; an ISO-8601 `startTime` is accepted and forwarded to the
vendor body after normalization to the canonical millisecond form
(`"2024-01-01T00:00:00Z"` is forwarded as `"2024-01-01T00:00:00.000Z"`;
normalization is a no-op only on input already in that canonical form). -/
theorem getDeviceHistoryTool_validation :
    (∀ (α : Type) (net : Request → Except UnwrapError α) (c : Cache α)
      (dev rid endT : String) (p s : Nat),
      getDeviceHistoryTool net c dev rid "not-a-date" endT p s =
        (.error ("Error: Invalid time format. Please use ISO 8601 format (e.g., \"2024-01-01T00:00:00Z\") or standard date strings."), c, [])) ∧
    (∀ (α : Type) (net : Request → Except UnwrapError α) (c : Cache α)
      (dev rid stT endT : String) (p s : Nat) (m : String),
      parseTimeString stT = .error m →
      getDeviceHistoryTool net c dev rid stT endT p s = (.error ("Error: " ++ m), c, [])) ∧
    (∀ (α : Type) (net : Request → Except UnwrapError α) (c : Cache α)
      (dev rid stT endT : String) (p s : Nat) (st et : String),
      parseTimeString stT = .ok st → parseTimeString endT = .ok et →
      (getDeviceHistoryTool net c dev rid stT endT p s).2.2 =
        [historyReq dev rid st et p s]) ∧
    parseTimeString "2024-01-01T00:00:00Z" = .ok "2024-01-01T00:00:00.000Z" ∧
    parseTimeString "2024-01-01T00:00:00.000Z" = .ok "2024-01-01T00:00:00.000Z" ∧
    parseTimeString "not-a-date" = .error "Invalid time format. Please use ISO 8601 format (e.g., \"2024-01-01T00:00:00Z\") or standard date strings." := by
  refine ⟨?_, ?_, ?_, rfl, rfl, rfl⟩
  · intro α net c dev rid endT p s
    rfl
  · intro α net c dev rid stT endT p s m h
    simp [getDeviceHistoryTool, h]
  · intro α net c dev rid stT endT p s st et h1 h2
    simp only [getDeviceHistoryTool, h1, h2]
    unfold getDeviceHistory
    cases hn : net (historyReq dev rid st et p s) <;> simp [hn]

end Aqara
